import Mathlib

/-!
Verification of the price-and-rate resolution engine of the portfolio
replicator: the multi-source CCL resolver with cache (`DollarRateService`),
the CEDEAR ratio parsing (`CEDEARProcessor`), the arbitrage detector
(`ArbitrageDetector`), the unified price fetcher (`PriceFetcher`) and the
variation analyzer (`VariationAnalyzer`).

Modelling conventions:
- Python floats are embedded as exact rationals (`ℚ`); timestamps and TTLs
  are embedded as integers (`ℤ`, seconds), so that the resolver evaluates
  by kernel reduction on concrete inputs.
- External I/O (HTTP fetches, the IOL session, the BYMA snapshot) is passed
  in as explicit oracles; a fetch that raises is a distinguished outcome.
- Python `None` results and caught exceptions both surface as `Option.none`
  where the source collapses them (`try ... except ... return None`).
-/

namespace PortfolioReplicator

/-! ## CEDEARProcessor.parse_ratio (app/processors/cedeares.py, lines 87-96)

`parse_ratio` feeds `float(...)` with either the text before the first `:`
or the whole string, and returns 1.0 whenever that conversion raises.  The
helpers below model the decimal strings accepted by the Python `float`
constructor (optional sign, digits with optional fraction and exponent,
surrounding whitespace); `inf`, `nan` and underscore separators are left
out, as no ratio data uses them. -/

def digitVal (c : Char) : ℕ := c.toNat - 48

/-- Numeric value of a digit string (meaningful when all characters are
digits); the empty list denotes 0, as in the fraction of `"1."`. -/
def digitsVal (cs : List Char) : ℕ := cs.foldl (fun a c => 10 * a + digitVal c) 0

/-- Split at the first character satisfying `p`: the part before it and,
when present, the remainder after it. -/
def splitFirst (p : Char → Bool) : List Char → List Char × Option (List Char)
  | [] => ([], none)
  | c :: cs =>
    if p c then ([], some cs)
    else
      let r := splitFirst p cs
      (c :: r.1, r.2)

def isWsChar (c : Char) : Bool := c = ' ' ∨ c = '\t' ∨ c = '\n' ∨ c = '\r'

def trimWs (cs : List Char) : List Char :=
  ((cs.dropWhile isWsChar).reverse.dropWhile isWsChar).reverse

/-- Unsigned decimal mantissa: `digits`, `digits.digits`, `digits.` or
`.digits`, with at least one digit in total. -/
def parseDecMantissa (cs : List Char) : Option ℚ :=
  match splitFirst (fun c => c = '.') cs with
  | (ip, none) =>
    if ip ≠ [] ∧ ip.all Char.isDigit then some (digitsVal ip : ℚ) else none
  | (ip, some fp) =>
    if (ip ≠ [] ∨ fp ≠ []) ∧ ip.all Char.isDigit ∧ fp.all Char.isDigit ∧
        fp.all (fun c => c ≠ '.') then
      some ((digitsVal ip : ℚ) + (digitsVal fp : ℚ) / 10 ^ fp.length)
    else none

def parseSignedMantissa : List Char → Option ℚ
  | '+' :: cs => parseDecMantissa cs
  | '-' :: cs => (parseDecMantissa cs).map Neg.neg
  | cs => parseDecMantissa cs

def parseSignedExp : List Char → Option ℤ
  | '+' :: cs => if cs ≠ [] ∧ cs.all Char.isDigit then some (digitsVal cs : ℤ) else none
  | '-' :: cs => if cs ≠ [] ∧ cs.all Char.isDigit then some (-(digitsVal cs : ℤ)) else none
  | cs => if cs ≠ [] ∧ cs.all Char.isDigit then some (digitsVal cs : ℤ) else none

/-- Model of the Python `float(str)` conversion on the decimal strings this
repository feeds it: `none` when the conversion would raise `ValueError`. -/
def pyFloatChars (cs : List Char) : Option ℚ :=
  let t := trimWs cs
  match splitFirst (fun c => c = 'e' ∨ c = 'E') t with
  | (m, none) => parseSignedMantissa m
  | (m, some ex) =>
    if ex.all (fun c => c ≠ 'e' ∧ c ≠ 'E') then
      match parseSignedMantissa m, parseSignedExp ex with
      | some mv, some ev => some (mv * (10 : ℚ) ^ ev)
      | _, _ => none
    else none

def pyFloat (s : String) : Option ℚ := pyFloatChars s.data

/-- CEDEARProcessor.parse_ratio: for `"2:1"` the number of CEDEARs per
share is the field before the colon; a string without a colon converts
directly; any failed conversion falls back to the default 1.0 (the
`except (ValueError, ZeroDivisionError)` arm).  The function is total:
no input aborts the caller. -/
def parse_ratio (s : String) : ℚ :=
  if s.data.any (fun c => c = ':') then
    (pyFloatChars (splitFirst (fun c => c = ':') s.data).1).getD 1
  else
    (pyFloatChars s.data).getD 1

/-- The character list whose `float(...)` conversion `parse_ratio s`
attempts: the text before the first colon when a colon is present,
otherwise the whole string. -/
def ratioHead (s : String) : List Char :=
  if s.data.any (fun c => c = ':') then (splitFirst (fun c => c = ':') s.data).1
  else s.data

theorem parse_ratio_eq_getD (s : String) :
    parse_ratio s = (pyFloatChars (ratioHead s)).getD 1 := by
  unfold parse_ratio ratioHead
  by_cases h : s.data.any (fun c => c = ':') <;> simp [h]

/-! ## DollarRateService (app/services/dollar_rate.py)

State and per-call algorithm of `get_ccl_rate`.  Timestamps are integer
seconds; the two live fetchers (`_get_dolarapi_ccl`, `_get_ccl_al30`) are
an oracle mapping each source to its outcome at call time.  The in-memory
cache holds one slot per key `"ccl:<source>"`; `_set_cache` always stores
a `_ts` timestamp, so cache entries carry one unconditionally. -/

inductive Source
  | dolarapi_ccl
  | ccl_al30
  | dolarapi_mep
  deriving DecidableEq

/-- Payload of a successful fetch that the resolver reads back (the `rate`
field of the result dict; the remaining fields ride along unchanged). -/
structure RateData where
  rate : ℚ
  deriving DecidableEq

structure CacheEntry where
  data : RateData
  ts : ℤ
  deriving DecidableEq

/-- The metadata-bearing dict `get_ccl_rate` returns: `cache_fallback` is
false when the key is absent from the Python dict. -/
structure CCLResult where
  rate : ℚ
  source : Source
  preferred_source : Source
  fallback_used : Bool
  cache_fallback : Bool
  attempted_sources : List Source
  deriving DecidableEq

/-- Outcome of one live fetch: a result dict, a falsy result (the loop
advances without disabling the source), or a raised exception. -/
inductive FetchOutcome
  | ok (d : RateData)
  | noneResult
  | raises
  deriving DecidableEq

structure DollarState where
  cache_ttl_seconds : ℤ
  preferred_ccl_source : Source
  status_dolarapi_ccl : Bool
  status_ccl_al30 : Bool
  status_dolarapi_mep : Bool
  iol_session : Bool
  cache_dolarapi_ccl : Option CacheEntry
  cache_ccl_al30 : Option CacheEntry
  cache_dolarapi_mep : Option CacheEntry
  deriving DecidableEq

/-- `sources_status` lookup (`.get(source, False)` on a dict keyed by the
three source names). -/
def DollarState.status (st : DollarState) : Source → Bool
  | .dolarapi_ccl => st.status_dolarapi_ccl
  | .ccl_al30 => st.status_ccl_al30
  | .dolarapi_mep => st.status_dolarapi_mep

def DollarState.setStatus (st : DollarState) : Source → Bool → DollarState
  | .dolarapi_ccl, b => { st with status_dolarapi_ccl := b }
  | .ccl_al30, b => { st with status_ccl_al30 := b }
  | .dolarapi_mep, b => { st with status_dolarapi_mep := b }

/-- Cache slot for key `"ccl:<source>"`. -/
def DollarState.getCache (st : DollarState) : Source → Option CacheEntry
  | .dolarapi_ccl => st.cache_dolarapi_ccl
  | .ccl_al30 => st.cache_ccl_al30
  | .dolarapi_mep => st.cache_dolarapi_mep

def DollarState.setCacheSlot (st : DollarState) : Source → Option CacheEntry → DollarState
  | .dolarapi_ccl, e => { st with cache_dolarapi_ccl := e }
  | .ccl_al30, e => { st with cache_ccl_al30 := e }
  | .dolarapi_mep, e => { st with cache_dolarapi_mep := e }

/-- `self._cache.pop(key, None)`. -/
def DollarState.popCache (st : DollarState) (s : Source) : DollarState :=
  st.setCacheSlot s none

/-- Constructor defaults (`__init__` without a config, except that `ttl`
and the preferred source stay parameters): dolarapi sources enabled,
`ccl_al30` disabled until an IOL session is attached, empty cache. -/
def DollarState.init (ttl : ℤ) (preferred : Source) : DollarState :=
  { cache_ttl_seconds := ttl
    preferred_ccl_source := preferred
    status_dolarapi_ccl := true
    status_ccl_al30 := false
    status_dolarapi_mep := true
    iol_session := false
    cache_dolarapi_ccl := none
    cache_ccl_al30 := none
    cache_dolarapi_mep := none }

/-- DollarRateService.set_iol_session (lines 44-51): stores the session and
flips availability of the `ccl_al30` source only. -/
def set_iol_session (st : DollarState) (session : Bool) : DollarState :=
  { st with iol_session := session, status_ccl_al30 := session }

/-- DollarRateService._get_from_cache (lines 175-188): a miss on an entry
older than the TTL EVICTS the entry (`self._cache.pop(key, None)`); a
fresh entry is returned as a copy without the `_ts` metadata. -/
def getFromCache (st : DollarState) (s : Source) (now : ℤ) :
    Option RateData × DollarState :=
  match st.getCache s with
  | none => (none, st)
  | some e =>
    if st.cache_ttl_seconds < now - e.ts then (none, st.popCache s)
    else (some e.data, st)

/-- DollarRateService._set_cache (lines 190-193). -/
def setCacheNow (st : DollarState) (s : Source) (d : RateData) (now : ℤ) : DollarState :=
  st.setCacheSlot s (some { data := d, ts := now })

/-- DollarRateService._get_from_cache_expired_ok (lines 195-204): returns
the entry with no TTL check and no eviction. -/
def getFromCacheExpiredOk (st : DollarState) (s : Source) : Option CacheEntry :=
  st.getCache s

/-- Priority order built from the preferred source (lines 74-82); the
`else` arm covers `dolarapi_mep` and any other value. -/
def sourcesFor : Source → List Source
  | .dolarapi_ccl => [.dolarapi_ccl, .ccl_al30]
  | .ccl_al30 => [.ccl_al30, .dolarapi_ccl]
  | .dolarapi_mep => [.dolarapi_ccl, .ccl_al30]

/-- Step 0 of get_ccl_rate (lines 86-96): serve the first fresh cache hit
in priority order, overwriting the metadata fields on the returned copy.
Threading the state records the evictions `_get_from_cache` performs. -/
def cachePhase (now : ℤ) (preferred : Source) :
    List Source → DollarState → Option CCLResult × DollarState
  | [], st => (none, st)
  | s :: rest, st =>
    match getFromCache st s now with
    | (some d, st1) =>
      (some { rate := d.rate
              source := s
              preferred_source := preferred
              fallback_used := decide (s ≠ preferred)
              cache_fallback := false
              attempted_sources := [s] }, st1)
    | (none, st1) => cachePhase now preferred rest st1

/-- Step 1 of get_ccl_rate (lines 98-141): try live sources in order,
skipping the ones flagged unavailable; a source is appended to
`attempted_sources` before its fetch runs; a raised fetch marks the
source unavailable; a success is cached under the source key and
returned.  A source that is neither of the two CCL fetchers is appended
and then skipped (`else: continue`). -/
def livePhase (oracle : Source → FetchOutcome) (now : ℤ) (preferred : Source) :
    List Source → List Source → DollarState → Option CCLResult × List Source × DollarState
  | [], attempted, st => (none, attempted, st)
  | s :: rest, attempted, st =>
    if st.status s = false then livePhase oracle now preferred rest attempted st
    else
      match s with
      | .dolarapi_mep => livePhase oracle now preferred rest (attempted ++ [s]) st
      | _ =>
        match oracle s with
        | .ok d =>
          (some { rate := d.rate
                  source := s
                  preferred_source := preferred
                  fallback_used := decide (s ≠ preferred)
                  cache_fallback := false
                  attempted_sources := attempted ++ [s] },
           attempted ++ [s], setCacheNow st s d now)
        | .noneResult => livePhase oracle now preferred rest (attempted ++ [s]) st
        | .raises => livePhase oracle now preferred rest (attempted ++ [s]) (st.setStatus s false)

/-- Step 2 of get_ccl_rate (lines 146-166): last resort, serve the first
cache entry in priority order regardless of age, flagged
`cache_fallback = true`; the state is not modified. -/
def stalePhase (preferred : Source) (attempted : List Source) :
    List Source → DollarState → Option CCLResult
  | [], _ => none
  | s :: rest, st =>
    match getFromCacheExpiredOk st s with
    | some e =>
      some { rate := e.data.rate
             source := s
             preferred_source := preferred
             fallback_used := true
             cache_fallback := true
             attempted_sources := attempted }
    | none => stalePhase preferred attempted rest st

/-- DollarRateService.get_ccl_rate (lines 53-173): resolve the preferred
source, then cache phase, live phase, stale-cache phase, else fail. -/
def get_ccl_rate (st : DollarState) (oracle : Source → FetchOutcome) (now : ℤ)
    (preferredArg : Option Source) : Option CCLResult × DollarState :=
  let preferred := preferredArg.getD st.preferred_ccl_source
  let sources := sourcesFor preferred
  match cachePhase now preferred sources st with
  | (some r, st1) => (some r, st1)
  | (none, st1) =>
    match livePhase oracle now preferred sources [] st1 with
    | (some r, _, st2) => (some r, st2)
    | (none, attempted, st2) =>
      match stalePhase preferred attempted sources st2 with
      | some r => (some r, st2)
      | none => (none, st2)

/-- One externally visible operation on a DollarRateService instance:
a `get_ccl_rate` call (with its oracle and clock) or a session update. -/
inductive DollarEvent
  | rateCall (oracle : Source → FetchOutcome) (now : ℤ) (preferredArg : Option Source)
  | sessionSet (session : Bool)

def stepEvent (st : DollarState) : DollarEvent → DollarState
  | .rateCall oracle now p => (get_ccl_rate st oracle now p).2
  | .sessionSet b => set_iol_session st b

def runEvents (st : DollarState) (evs : List DollarEvent) : DollarState :=
  evs.foldl stepEvent st

/-! ## ArbitrageDetector (app/services/arbitrage_detector.py) and
PriceFetcher (app/services/price_fetcher.py)

The detector carries a mode derived from the attached IOL session; its
collaborators (international price service, CEDEAR processor, BYMA feed,
dollar service) appear as per-symbol oracles.  `none` covers a collaborator
failure as well as a raised-and-caught exception. -/

inductive Mode
  | full
  | limited
  deriving DecidableEq

inductive Action
  | BUY_CEDEAR
  | BUY_UNDERLYING
  deriving DecidableEq

structure ArbitrageDetector where
  iol_session : Bool
  mode : Mode
  deriving DecidableEq

/-- ArbitrageDetector.set_iol_session (lines 100-104): rewrites only the
fields of the detector itself. -/
def ArbitrageDetector.set_iol_session (_d : ArbitrageDetector) (session : Bool) :
    ArbitrageDetector :=
  { iol_session := session, mode := if session then .full else .limited }

structure PriceFetcher where
  iol_session : Bool
  mode : Mode
  deriving DecidableEq

/-- PriceFetcher.set_iol_session (price_fetcher.py lines 46-49). -/
def PriceFetcher.set_iol_session (_pf : PriceFetcher) (session : Bool) : PriceFetcher :=
  { iol_session := session, mode := if session then .full else .limited }

/-- A detector together with the PriceFetcher built alongside it
(app/core/services.py builds exactly one of each and hands them out
separately; callers such as app/workflows/commands/analysis_commands.py
invoke their two setters independently). -/
structure DetectorFetcherPair where
  detector : ArbitrageDetector
  fetcher : PriceFetcher
  deriving DecidableEq

/-- Calling the detector setter on such a pair: the source method touches
no price fetcher, so the fetcher component passes through unchanged. -/
def detectorSetSessionOnPair (p : DetectorFetcherPair) (session : Bool) :
    DetectorFetcherPair :=
  { p with detector := p.detector.set_iol_session session }

/-- Record looked up by `cedear_processor.get_underlying_asset`: only the
`ratio` field matters here, and it may be absent (`.get("ratio", ...)`). -/
structure CedearInfo where
  ratioStr : Option String
  deriving DecidableEq

/-- Collaborator oracles of one detector call. `ccl` is the `rate` field of
`dollar_service_instance.get_ccl_rate()`, `none` when that returns None. -/
structure DetectorEnv where
  get_stock_price : String → Option ℚ
  iol_quote : String → Option ℚ
  byma_quote : String → Option ℚ
  cedear_info : String → Option CedearInfo
  ccl : Option ℚ

/-- ArbitrageDetector._get_iol_cedear_price (lines 186-221): IOL quote,
ratio lookup with default "1:1", CCL with hardcoded 1300 fallback, then
`(precio * ratio) / ccl`.  A missing or non-positive quote, a missing
CEDEAR record, or a zero divisor raises and yields `(None, None)`. -/
def ArbitrageDetector.getIolCedearPrice (env : DetectorEnv) (symbol : String) :
    Option ℚ × Option ℚ :=
  match env.iol_quote symbol with
  | none => (none, none)
  | some p =>
    if p ≤ 0 then (none, none)
    else
      match env.cedear_info symbol with
      | none => (none, none)
      | some info =>
        let r := parse_ratio (info.ratioStr.getD "1:1")
        let c := env.ccl.getD 1300
        if c = 0 then (none, none)
        else (some p, some (p * r / c))

/-- ArbitrageDetector._get_byma_real_cedear_price (lines 263-314): CEDEAR
record, ratio, BYMA price (`trade` or `closingPrice`, positive), CCL with
1300 fallback, then `(precio * ratio) / ccl`. -/
def ArbitrageDetector.getBymaRealCedearPrice (env : DetectorEnv) (symbol : String) :
    Option ℚ × Option ℚ :=
  match env.cedear_info symbol with
  | none => (none, none)
  | some info =>
    let r := parse_ratio (info.ratioStr.getD "1:1")
    match env.byma_quote symbol with
    | none => (none, none)
    | some p =>
      if p ≤ 0 then (none, none)
      else
        let c := env.ccl.getD 1300
        if c = 0 then (none, none)
        else (some p, some (p * r / c))

/-- ArbitrageDetector._get_cedear_price_usd (lines 171-184): dispatch on
mode and session; there is no further fallback between the branches. -/
def ArbitrageDetector.getCedearPriceUsd (d : ArbitrageDetector) (env : DetectorEnv)
    (symbol : String) : Option ℚ × Option ℚ :=
  if d.mode = Mode.full ∧ d.iol_session = true then
    ArbitrageDetector.getIolCedearPrice env symbol
  else
    ArbitrageDetector.getBymaRealCedearPrice env symbol

/-- ArbitrageDetector._get_theoretical_cedear_price (lines 223-261): ratio,
underlying price, CCL with 1300 fallback, theoretical CEDEAR price
`(u / ratio) * ccl` in ARS, and the share price implied by converting it
back, `(((u / ratio) * ccl) * ratio) / ccl`.  `detect_single_arbitrage`
never calls this method. -/
def ArbitrageDetector.getTheoreticalCedearPrice (env : DetectorEnv) (symbol : String) :
    Option ℚ × Option ℚ :=
  match env.cedear_info symbol with
  | none => (none, none)
  | some info =>
    let r := parse_ratio (info.ratioStr.getD "1:1")
    match env.get_stock_price symbol with
    | none => (none, none)
    | some u =>
      let c := env.ccl.getD 1300
      if r = 0 then (none, none)
      else if c = 0 then (none, none)
      else
        let teoricoArs := u / r * c
        (some teoricoArs, some (teoricoArs * r / c))

/-- ArbitrageOpportunity (lines 20-42), with the recommendation and action
collapsed into one enum: the constructor derives them from the sign of
`difference_usd` alone (`> 0` buys the CEDEAR, otherwise the underlying). -/
structure ArbitrageOpportunity where
  symbol : String
  cedear_price_usd : ℚ
  underlying_price_usd : ℚ
  difference_usd : ℚ
  difference_percentage : ℚ
  ccl_rate : ℚ
  cedear_price_ars : Option ℚ
  iol_session_active : Bool
  action : Action
  deriving DecidableEq

def mkOpportunity (symbol : String) (cedearUsd underlyingUsd diffUsd diffPct cclRate : ℚ)
    (cedearArs : Option ℚ) (sessionActive : Bool) : ArbitrageOpportunity :=
  { symbol := symbol
    cedear_price_usd := cedearUsd
    underlying_price_usd := underlyingUsd
    difference_usd := diffUsd
    difference_percentage := diffPct
    ccl_rate := cclRate
    cedear_price_ars := cedearArs
    iol_session_active := sessionActive
    action := if 0 < diffUsd then .BUY_CEDEAR else .BUY_UNDERLYING }

/-- ArbitrageDetector.detect_single_arbitrage (lines 106-169): underlying
price, CEDEAR price via the mode dispatch (a falsy per-share price aborts),
difference and percentage (division by a zero underlying price raises and
is caught), threshold comparison with `>=`, and on success the CCL rate
(1300 when unavailable) and the opportunity.  Below the threshold the call
returns None, not an error. -/
def detect_single_arbitrage (d : ArbitrageDetector) (env : DetectorEnv) (symbol : String)
    (threshold : ℚ) : Option ArbitrageOpportunity :=
  match env.get_stock_price symbol with
  | none => none
  | some u =>
    match ArbitrageDetector.getCedearPriceUsd d env symbol with
    | (_, none) => none
    | (cedearArs, some cu) =>
      if cu = 0 then none
      else if u = 0 then none
      else
        let diffUsd := u - cu
        let diffPct := |diffUsd| / u
        if threshold ≤ diffPct then
          some (mkOpportunity symbol cu u diffUsd diffPct (env.ccl.getD 1300) cedearArs
            (decide (d.mode = Mode.full)))
        else none

/-! ### PriceFetcher price derivations (price_fetcher.py) -/

/-- Collaborator oracles of one PriceFetcher call. -/
structure FetcherEnv where
  cedear_info : String → Option CedearInfo
  ccl : Option ℚ

/-- PriceFetcher._get_ccl_rate_safe (lines 265-281): the rate when the
dollar service answered with a truthy rate, otherwise None (a zero rate is
falsy in Python); there is no hardcoded fallback here. -/
def PriceFetcher.getCclRateSafe (env : FetcherEnv) : Option ℚ :=
  match env.ccl with
  | none => none
  | some c => if c = 0 then none else some c

/-- PriceFetcher._get_cedear_conversion_info (lines 52-71): raises when the
symbol is unknown or its ratio field is missing or falsy; otherwise the
parsed conversion ratio. -/
def PriceFetcher.getCedearConversionInfo (env : FetcherEnv) (symbol : String) : Option ℚ :=
  match env.cedear_info symbol with
  | none => none
  | some info =>
    match info.ratioStr with
    | none => none
    | some rs => if rs = "" then none else some (parse_ratio rs)

/-- PriceFetcher.get_theoretical_cedear_price (lines 227-263): conversion
ratio (a zero ratio raises ZeroDivisionError, caught), the per-CEDEAR USD
price `u / ratio`, the CCL via the safe helper, and the pair
`(cedear ARS price, implied share USD price)` where the implied share
price is `(u / ratio) * ratio`. -/
def PriceFetcher.getTheoreticalCedearPrice (env : FetcherEnv) (symbol : String)
    (underlying_price : ℚ) : Option ℚ × Option ℚ :=
  match PriceFetcher.getCedearConversionInfo env symbol with
  | none => (none, none)
  | some r =>
    if r = 0 then (none, none)
    else
      let individualUsd := underlying_price / r
      match PriceFetcher.getCclRateSafe env with
      | none => (none, none)
      | some c => (some (individualUsd * c), some (individualUsd * r))

/-! ## VariationAnalyzer (app/services/variation_analyzer.py) -/

structure CEDEARVariationAnalysis where
  symbol : String
  precio_cedear_ayer_ars : ℚ
  precio_underlying_ayer_usd : ℚ
  ccl_ayer : ℚ
  precio_cedear_hoy_ars : ℚ
  precio_underlying_hoy_usd : ℚ
  ccl_hoy : ℚ
  var_cedear : ℚ
  var_underlying : ℚ
  var_ccl : ℚ
  mode : Mode
  deriving DecidableEq

structure VariationState where
  iol_session : Bool
  mode : Mode
  deriving DecidableEq

/-- Collaborator oracles of one analyzer call: current underlying price,
the `(today, yesterday)` CEDEAR prices from `_get_cedear_prices`, and the
`(today, yesterday)` CCL pair from `_get_ccl_prices`. -/
structure VariationEnv where
  get_stock_price : String → Option ℚ
  cedear_prices : String → Option ℚ × Option ℚ
  ccl_prices : Option ℚ × Option ℚ

/-- VariationAnalyzer._get_historical_underlying_price (lines 160-170): the
Yahoo Finance historical source was removed, so every call logs a warning
and returns None. -/
def getHistoricalUnderlyingPrice (_symbol : String) : Option ℚ := none

/-- VariationAnalyzer.analyze_single_variation (lines 94-158): current
underlying price, historical underlying price (step 2, falsy aborts),
CEDEAR prices (falsy values abort), CCL pair (falsy values abort), then
the three relative variations. -/
def analyze_single_variation (st : VariationState) (env : VariationEnv) (symbol : String) :
    Option CEDEARVariationAnalysis :=
  match env.get_stock_price symbol with
  | none => none
  | some uToday =>
    match getHistoricalUnderlyingPrice symbol with
    | none => none
    | some uYesterday =>
      if uYesterday = 0 then none
      else
        match env.cedear_prices symbol with
        | (some cToday, some cYesterday) =>
          if cToday = 0 ∨ cYesterday = 0 then none
          else
            match env.ccl_prices with
            | (some gToday, some gYesterday) =>
              if gToday = 0 ∨ gYesterday = 0 then none
              else
                some { symbol := symbol
                       precio_cedear_ayer_ars := cYesterday
                       precio_underlying_ayer_usd := uYesterday
                       ccl_ayer := gYesterday
                       precio_cedear_hoy_ars := cToday
                       precio_underlying_hoy_usd := uToday
                       ccl_hoy := gToday
                       var_cedear := (cToday - cYesterday) / cYesterday
                       var_underlying := (uToday - uYesterday) / uYesterday
                       var_ccl := (gToday - gYesterday) / gYesterday
                       mode := st.mode }
            | _ => none
        | _ => none

/-- VariationAnalyzer.analyze_portfolio_variations (lines 278-308): one
analysis per symbol, keeping the non-None results in order (a failed
symbol never aborts its siblings). -/
def analyze_portfolio_variations (st : VariationState) (env : VariationEnv)
    (symbols : List String) : List CEDEARVariationAnalysis :=
  (symbols.map fun s => analyze_single_variation st env s).filterMap id

/-! ## Resolver lemmas

Bookkeeping facts about the three phases of `get_ccl_rate`, used by the
cache, fallback and source-disabling theorems below. -/

theorem setCacheSlot_status (st : DollarState) (s : Source) (e : Option CacheEntry)
    (s2 : Source) : (st.setCacheSlot s e).status s2 = st.status s2 := by
  cases s <;> cases s2 <;> rfl

theorem setCacheSlot_getCache (st : DollarState) (s : Source) (e : Option CacheEntry)
    (s2 : Source) :
    (st.setCacheSlot s e).getCache s2 = if s2 = s then e else st.getCache s2 := by
  cases s <;> cases s2 <;> simp [DollarState.setCacheSlot, DollarState.getCache]

theorem setStatus_status (st : DollarState) (s : Source) (b : Bool) (s2 : Source) :
    (st.setStatus s b).status s2 = if s2 = s then b else st.status s2 := by
  cases s <;> cases s2 <;> simp [DollarState.setStatus, DollarState.status]

theorem setStatus_getCache (st : DollarState) (s : Source) (b : Bool) (s2 : Source) :
    (st.setStatus s b).getCache s2 = st.getCache s2 := by
  cases s <;> cases s2 <;> rfl

theorem getFromCache_status (st : DollarState) (s : Source) (now : ℤ) (s2 : Source) :
    ((getFromCache st s now).2).status s2 = st.status s2 := by
  unfold getFromCache
  cases hg : st.getCache s with
  | none => rfl
  | some e =>
    dsimp only
    split
    · exact setCacheSlot_status st s none s2
    · rfl

theorem getFromCache_getCache_or (st : DollarState) (s : Source) (now : ℤ) (s2 : Source) :
    ((getFromCache st s now).2).getCache s2 = st.getCache s2 ∨
      ((getFromCache st s now).2).getCache s2 = none := by
  unfold getFromCache
  cases hg : st.getCache s with
  | none => exact .inl rfl
  | some e =>
    dsimp only
    split
    · rw [DollarState.popCache, setCacheSlot_getCache]
      split
      · exact .inr rfl
      · exact .inl rfl
    · exact .inl rfl

theorem getFromCache_cacheNone (st : DollarState) (s : Source) (now : ℤ) (s2 : Source)
    (h : st.getCache s2 = none) : ((getFromCache st s now).2).getCache s2 = none := by
  rcases getFromCache_getCache_or st s now s2 with h2 | h2
  · rw [h2, h]
  · exact h2

theorem getFromCache_fst_none (st : DollarState) (s : Source) (now : ℤ)
    (h : (getFromCache st s now).1 = none) :
    ((getFromCache st s now).2).getCache s = none := by
  unfold getFromCache at h ⊢
  cases hg : st.getCache s with
  | none => exact hg
  | some e =>
    rw [hg] at h
    dsimp only at h ⊢
    by_cases hlt : st.cache_ttl_seconds < now - e.ts
    · rw [if_pos hlt]
      dsimp only
      rw [DollarState.popCache, setCacheSlot_getCache, if_pos rfl]
    · rw [if_neg hlt] at h
      exact absurd h (by simp)

theorem getFromCache_fst_some (st : DollarState) (s : Source) (now : ℤ) (d : RateData)
    (h : (getFromCache st s now).1 = some d) : st.getCache s ≠ none := by
  unfold getFromCache at h
  cases hg : st.getCache s with
  | none => rw [hg] at h; exact absurd h (by simp)
  | some e => simp [hg]

theorem cachePhase_status (now : ℤ) (p : Source) :
    ∀ (srcs : List Source) (st : DollarState) (s2 : Source),
      ((cachePhase now p srcs st).2).status s2 = st.status s2
  | [], _, _ => rfl
  | s :: rest, st, s2 => by
    unfold cachePhase
    rcases hg : getFromCache st s now with ⟨fst, snd⟩
    cases fst with
    | some d =>
      dsimp only
      have := getFromCache_status st s now s2
      rw [hg] at this
      exact this
    | none =>
      dsimp only
      have h1 := cachePhase_status now p rest snd s2
      have h2 := getFromCache_status st s now s2
      rw [hg] at h2
      rw [h1, h2]

theorem cachePhase_getCache_or (now : ℤ) (p : Source) :
    ∀ (srcs : List Source) (st : DollarState) (s2 : Source),
      ((cachePhase now p srcs st).2).getCache s2 = st.getCache s2 ∨
        ((cachePhase now p srcs st).2).getCache s2 = none
  | [], _, _ => .inl rfl
  | s :: rest, st, s2 => by
    unfold cachePhase
    rcases hg : getFromCache st s now with ⟨fst, snd⟩
    have h2 := getFromCache_getCache_or st s now s2
    rw [hg] at h2
    cases fst with
    | some d => exact h2
    | none =>
      dsimp only
      rcases cachePhase_getCache_or now p rest snd s2 with h1 | h1
      · rw [h1]; exact h2
      · exact .inr h1

theorem cachePhase_cacheNone (now : ℤ) (p : Source) (srcs : List Source)
    (st : DollarState) (s2 : Source) (h : st.getCache s2 = none) :
    ((cachePhase now p srcs st).2).getCache s2 = none := by
  rcases cachePhase_getCache_or now p srcs st s2 with h2 | h2
  · rw [h2, h]
  · exact h2

theorem cachePhase_none_slots (now : ℤ) (p : Source) :
    ∀ (srcs : List Source) (st st1 : DollarState),
      cachePhase now p srcs st = (none, st1) →
      ∀ s2 ∈ srcs, st1.getCache s2 = none
  | [], st, st1, h => by simp
  | s :: rest, st, st1, h => by
    unfold cachePhase at h
    rcases hg : getFromCache st s now with ⟨fst, snd⟩
    rw [hg] at h
    cases fst with
    | some d => exact absurd h (by simp)
    | none =>
      dsimp only at h
      intro s2 hs2
      rcases List.mem_cons.mp hs2 with hEq | hmem
      · subst hEq
        have hfst : (getFromCache st s2 now).1 = none := by rw [hg]
        have hnone := getFromCache_fst_none st s2 now hfst
        rw [hg] at hnone
        have hfin := cachePhase_cacheNone now p rest snd s2 hnone
        rw [h] at hfin
        exact hfin
      · exact cachePhase_none_slots now p rest snd st1 h s2 hmem

theorem cachePhase_some (now : ℤ) (p : Source) :
    ∀ (srcs : List Source) (st st1 : DollarState) (r : CCLResult),
      cachePhase now p srcs st = (some r, st1) →
      r.attempted_sources = [r.source] ∧ r.cache_fallback = false ∧
        r.source ∈ srcs ∧ st.getCache r.source ≠ none
  | [], st, st1, r, h => by exact absurd h (by simp [cachePhase])
  | s :: rest, st, st1, r, h => by
    unfold cachePhase at h
    rcases hg : getFromCache st s now with ⟨fst, snd⟩
    rw [hg] at h
    cases fst with
    | some d =>
      dsimp only at h
      rw [Prod.mk.injEq, Option.some_inj] at h
      obtain ⟨hr, _⟩ := h
      subst hr
      refine ⟨rfl, rfl, List.mem_cons_self s rest, ?_⟩
      exact getFromCache_fst_some st s now d (by rw [hg])
    | none =>
      dsimp only at h
      obtain ⟨h1, h2, h3, h4⟩ := cachePhase_some now p rest snd st1 r h
      refine ⟨h1, h2, List.mem_cons_of_mem s h3, ?_⟩
      rcases getFromCache_getCache_or st s now r.source with h5 | h5
      · rw [hg] at h5; rw [h5] at h4; exact h4
      · rw [hg] at h5; exact absurd h5 h4

theorem getFromCache_noEntry (st : DollarState) (s : Source) (now : ℤ)
    (h : st.getCache s = none) : getFromCache st s now = (none, st) := by
  unfold getFromCache
  rw [h]

theorem getFromCache_fresh (st : DollarState) (s : Source) (now : ℤ) (e : CacheEntry)
    (h : st.getCache s = some e) (h2 : ¬ st.cache_ttl_seconds < now - e.ts) :
    getFromCache st s now = (some e.data, st) := by
  unfold getFromCache
  rw [h]
  exact if_neg h2

theorem getFromCache_expired (st : DollarState) (s : Source) (now : ℤ) (e : CacheEntry)
    (h : st.getCache s = some e) (h2 : st.cache_ttl_seconds < now - e.ts) :
    getFromCache st s now = (none, st.popCache s) := by
  unfold getFromCache
  rw [h]
  exact if_pos h2

theorem cachePhase_nil (now : ℤ) (p : Source) (st : DollarState) :
    cachePhase now p [] st = (none, st) := rfl

theorem cachePhase_cons_miss (now : ℤ) (p s : Source) (rest : List Source)
    (st st1 : DollarState) (h : getFromCache st s now = (none, st1)) :
    cachePhase now p (s :: rest) st = cachePhase now p rest st1 := by
  conv_lhs => unfold cachePhase; rw [h]

theorem cachePhase_cons_hit (now : ℤ) (p s : Source) (rest : List Source)
    (st st1 : DollarState) (d : RateData) (h : getFromCache st s now = (some d, st1)) :
    cachePhase now p (s :: rest) st
      = (some { rate := d.rate, source := s, preferred_source := p,
                fallback_used := decide (s ≠ p), cache_fallback := false,
                attempted_sources := [s] }, st1) := by
  conv_lhs => unfold cachePhase; rw [h]

theorem livePhase_nil (oracle : Source → FetchOutcome) (now : ℤ) (p : Source)
    (att : List Source) (st : DollarState) :
    livePhase oracle now p [] att st = (none, att, st) := rfl

theorem livePhase_cons_skip (oracle : Source → FetchOutcome) (now : ℤ) (p s : Source)
    (rest att : List Source) (st : DollarState) (h : st.status s = false) :
    livePhase oracle now p (s :: rest) att st = livePhase oracle now p rest att st := by
  conv_lhs => unfold livePhase; rw [if_pos h]

theorem livePhase_cons_mep (oracle : Source → FetchOutcome) (now : ℤ) (p : Source)
    (rest att : List Source) (st : DollarState) (h : st.status .dolarapi_mep = true) :
    livePhase oracle now p (.dolarapi_mep :: rest) att st
      = livePhase oracle now p rest (att ++ [.dolarapi_mep]) st := by
  conv_lhs =>
    unfold livePhase
    rw [if_neg (show ¬ st.status .dolarapi_mep = false by simp [h])]

theorem livePhase_cons_raises (oracle : Source → FetchOutcome) (now : ℤ) (p s : Source)
    (rest att : List Source) (st : DollarState) (h : st.status s = true)
    (hs : s ≠ .dolarapi_mep) (ho : oracle s = .raises) :
    livePhase oracle now p (s :: rest) att st
      = livePhase oracle now p rest (att ++ [s]) (st.setStatus s false) := by
  conv_lhs =>
    unfold livePhase
    rw [if_neg (show ¬ st.status s = false by simp [h])]
  cases s with
  | dolarapi_mep => exact absurd rfl hs
  | dolarapi_ccl =>
    conv_lhs => rw [ho]
  | ccl_al30 =>
    conv_lhs => rw [ho]

theorem livePhase_cons_noneResult (oracle : Source → FetchOutcome) (now : ℤ) (p s : Source)
    (rest att : List Source) (st : DollarState) (h : st.status s = true)
    (hs : s ≠ .dolarapi_mep) (ho : oracle s = .noneResult) :
    livePhase oracle now p (s :: rest) att st
      = livePhase oracle now p rest (att ++ [s]) st := by
  conv_lhs =>
    unfold livePhase
    rw [if_neg (show ¬ st.status s = false by simp [h])]
  cases s with
  | dolarapi_mep => exact absurd rfl hs
  | dolarapi_ccl =>
    conv_lhs => rw [ho]
  | ccl_al30 =>
    conv_lhs => rw [ho]

theorem livePhase_cons_ok (oracle : Source → FetchOutcome) (now : ℤ) (p s : Source)
    (rest att : List Source) (st : DollarState) (h : st.status s = true)
    (hs : s ≠ .dolarapi_mep) (d : RateData) (ho : oracle s = .ok d) :
    livePhase oracle now p (s :: rest) att st
      = (some { rate := d.rate, source := s, preferred_source := p,
                fallback_used := decide (s ≠ p), cache_fallback := false,
                attempted_sources := att ++ [s] },
         att ++ [s], setCacheNow st s d now) := by
  conv_lhs =>
    unfold livePhase
    rw [if_neg (show ¬ st.status s = false by simp [h])]
  cases s with
  | dolarapi_mep => exact absurd rfl hs
  | dolarapi_ccl =>
    conv_lhs => rw [ho]
  | ccl_al30 =>
    conv_lhs => rw [ho]

theorem stalePhase_nil (p : Source) (att : List Source) (st : DollarState) :
    stalePhase p att [] st = none := rfl

theorem stalePhase_cons_none (p : Source) (att : List Source) (s : Source)
    (rest : List Source) (st : DollarState) (h : st.getCache s = none) :
    stalePhase p att (s :: rest) st = stalePhase p att rest st := by
  conv_lhs => unfold stalePhase; unfold getFromCacheExpiredOk; rw [h]

theorem stalePhase_cons_some (p : Source) (att : List Source) (s : Source)
    (rest : List Source) (st : DollarState) (e : CacheEntry) (h : st.getCache s = some e) :
    stalePhase p att (s :: rest) st
      = some { rate := e.data.rate, source := s, preferred_source := p,
               fallback_used := true, cache_fallback := true,
               attempted_sources := att } := by
  conv_lhs => unfold stalePhase; unfold getFromCacheExpiredOk; rw [h]

theorem stalePhase_none_of_slots (p : Source) (att : List Source) :
    ∀ (srcs : List Source) (st : DollarState),
      (∀ s2 ∈ srcs, st.getCache s2 = none) → stalePhase p att srcs st = none
  | [], _, _ => rfl
  | s :: rest, st, h => by
    rw [stalePhase_cons_none p att s rest st (h s (List.mem_cons_self s rest))]
    exact stalePhase_none_of_slots p att rest st
      (fun s2 hs2 => h s2 (List.mem_cons_of_mem s hs2))

theorem stalePhase_some_fields (p : Source) (att : List Source) :
    ∀ (srcs : List Source) (st : DollarState) (r : CCLResult),
      stalePhase p att srcs st = some r →
      r.attempted_sources = att ∧ r.cache_fallback = true
  | [], _, r, h => absurd h (by simp [stalePhase_nil])
  | s :: rest, st, r, h => by
    cases hg : st.getCache s with
    | none =>
      rw [stalePhase_cons_none p att s rest st hg] at h
      exact stalePhase_some_fields p att rest st r h
    | some e =>
      rw [stalePhase_cons_some p att s rest st e hg, Option.some_inj] at h
      subst h
      exact ⟨rfl, rfl⟩

/-- The pair of facts that make the dolarapi source invisible to a
`get_ccl_rate` call: flagged unavailable and no cache entry under its key. -/
def dolarapiDisabled (st : DollarState) : Prop :=
  st.status_dolarapi_ccl = false ∧ st.cache_dolarapi_ccl = none

theorem livePhase_disabled (oracle : Source → FetchOutcome) (now : ℤ) (p : Source) :
    ∀ (srcs att : List Source) (st : DollarState),
      dolarapiDisabled st → dolarapiDisabled ((livePhase oracle now p srcs att st).2.2)
  | [], _, _, hdis => hdis
  | s :: rest, att, st, hdis => by
    by_cases hs : st.status s = false
    · rw [livePhase_cons_skip oracle now p s rest att st hs]
      exact livePhase_disabled oracle now p rest att st hdis
    · have hs2 : st.status s = true := by
        cases hb : st.status s
        · exact absurd hb hs
        · rfl
      cases s with
      | dolarapi_ccl => exact absurd hs2 (by rw [DollarState.status, hdis.1]; decide)
      | dolarapi_mep =>
        rw [livePhase_cons_mep oracle now p rest att st hs2]
        exact livePhase_disabled oracle now p rest (att ++ [.dolarapi_mep]) st hdis
      | ccl_al30 =>
        cases ho : oracle .ccl_al30 with
        | ok d =>
          rw [livePhase_cons_ok oracle now p .ccl_al30 rest att st hs2 (by decide) d ho]
          exact ⟨hdis.1, hdis.2⟩
        | noneResult =>
          rw [livePhase_cons_noneResult oracle now p .ccl_al30 rest att st hs2 (by decide) ho]
          exact livePhase_disabled oracle now p rest (att ++ [.ccl_al30]) st hdis
        | raises =>
          rw [livePhase_cons_raises oracle now p .ccl_al30 rest att st hs2 (by decide) ho]
          exact livePhase_disabled oracle now p rest (att ++ [.ccl_al30])
            (st.setStatus .ccl_al30 false) ⟨hdis.1, hdis.2⟩

theorem livePhase_oracle_eq (now : ℤ) (p : Source) (o1 o2 : Source → FetchOutcome)
    (ho : ∀ s2, s2 ≠ Source.dolarapi_ccl → o1 s2 = o2 s2) :
    ∀ (srcs att : List Source) (st : DollarState),
      st.status_dolarapi_ccl = false →
      livePhase o1 now p srcs att st = livePhase o2 now p srcs att st
  | [], _, _, _ => rfl
  | s :: rest, att, st, hd => by
    by_cases hs : st.status s = false
    · rw [livePhase_cons_skip o1 now p s rest att st hs,
        livePhase_cons_skip o2 now p s rest att st hs]
      exact livePhase_oracle_eq now p o1 o2 ho rest att st hd
    · have hs2 : st.status s = true := by
        cases hb : st.status s
        · exact absurd hb hs
        · rfl
      cases s with
      | dolarapi_ccl => exact absurd hs2 (by rw [DollarState.status, hd]; decide)
      | dolarapi_mep =>
        rw [livePhase_cons_mep o1 now p rest att st hs2]
        rw [livePhase_cons_mep o2 now p rest att st hs2]
        exact livePhase_oracle_eq now p o1 o2 ho rest (att ++ [.dolarapi_mep]) st hd
      | ccl_al30 =>
        have hoa := ho .ccl_al30 (by decide)
        cases h2 : o2 .ccl_al30 with
        | ok d =>
          rw [livePhase_cons_ok o1 now p .ccl_al30 rest att st hs2 (by decide) d (hoa.trans h2),
            livePhase_cons_ok o2 now p .ccl_al30 rest att st hs2 (by decide) d h2]
        | noneResult =>
          rw [livePhase_cons_noneResult o1 now p .ccl_al30 rest att st hs2 (by decide)
              (hoa.trans h2),
            livePhase_cons_noneResult o2 now p .ccl_al30 rest att st hs2 (by decide) h2]
          exact livePhase_oracle_eq now p o1 o2 ho rest (att ++ [.ccl_al30]) st hd
        | raises =>
          rw [livePhase_cons_raises o1 now p .ccl_al30 rest att st hs2 (by decide)
              (hoa.trans h2),
            livePhase_cons_raises o2 now p .ccl_al30 rest att st hs2 (by decide) h2]
          exact livePhase_oracle_eq now p o1 o2 ho rest (att ++ [.ccl_al30])
            (st.setStatus .ccl_al30 false) hd

theorem livePhase_not_attempted (oracle : Source → FetchOutcome) (now : ℤ) (p : Source) :
    ∀ (srcs att : List Source) (st : DollarState),
      st.status_dolarapi_ccl = false → Source.dolarapi_ccl ∉ att →
      Source.dolarapi_ccl ∉ (livePhase oracle now p srcs att st).2.1 ∧
        (∀ r, (livePhase oracle now p srcs att st).1 = some r →
          Source.dolarapi_ccl ∉ r.attempted_sources)
  | [], att, st, _, hatt => ⟨hatt, fun r h => absurd h (by simp [livePhase_nil])⟩
  | s :: rest, att, st, hd, hatt => by
    by_cases hs : st.status s = false
    · rw [livePhase_cons_skip oracle now p s rest att st hs]
      exact livePhase_not_attempted oracle now p rest att st hd hatt
    · have hs2 : st.status s = true := by
        cases hb : st.status s
        · exact absurd hb hs
        · rfl
      cases s with
      | dolarapi_ccl => exact absurd hs2 (by rw [DollarState.status, hd]; decide)
      | dolarapi_mep =>
        rw [livePhase_cons_mep oracle now p rest att st hs2]
        exact livePhase_not_attempted oracle now p rest (att ++ [.dolarapi_mep]) st hd
          (by simp [hatt])
      | ccl_al30 =>
        cases ho : oracle .ccl_al30 with
        | ok d =>
          rw [livePhase_cons_ok oracle now p .ccl_al30 rest att st hs2 (by decide) d ho]
          refine ⟨by simp [hatt], ?_⟩
          intro r h
          rw [Option.some_inj] at h
          subst h
          simp [hatt]
        | noneResult =>
          rw [livePhase_cons_noneResult oracle now p .ccl_al30 rest att st hs2 (by decide) ho]
          exact livePhase_not_attempted oracle now p rest (att ++ [.ccl_al30]) st hd
            (by simp [hatt])
        | raises =>
          rw [livePhase_cons_raises oracle now p .ccl_al30 rest att st hs2 (by decide) ho]
          exact livePhase_not_attempted oracle now p rest (att ++ [.ccl_al30])
            (st.setStatus .ccl_al30 false) hd (by simp [hatt])

theorem livePhase_some_fields (oracle : Source → FetchOutcome) (now : ℤ) (p : Source) :
    ∀ (srcs att : List Source) (st : DollarState) (r : CCLResult) (att2 : List Source)
      (st2 : DollarState),
      livePhase oracle now p srcs att st = (some r, att2, st2) →
      r.cache_fallback = false
  | [], att, st, r, att2, st2, h => absurd h (by simp [livePhase_nil])
  | s :: rest, att, st, r, att2, st2, h => by
    by_cases hs : st.status s = false
    · rw [livePhase_cons_skip oracle now p s rest att st hs] at h
      exact livePhase_some_fields oracle now p rest att st r att2 st2 h
    · have hs2 : st.status s = true := by
        cases hb : st.status s
        · exact absurd hb hs
        · rfl
      cases s with
      | dolarapi_mep =>
        rw [livePhase_cons_mep oracle now p rest att st hs2] at h
        exact livePhase_some_fields oracle now p rest (att ++ [.dolarapi_mep]) st r att2 st2 h
      | dolarapi_ccl =>
        cases ho : oracle .dolarapi_ccl with
        | ok d =>
          rw [livePhase_cons_ok oracle now p .dolarapi_ccl rest att st hs2 (by decide) d ho,
            Prod.mk.injEq, Option.some_inj] at h
          rw [← h.1]
        | noneResult =>
          rw [livePhase_cons_noneResult oracle now p .dolarapi_ccl rest att st hs2
            (by decide) ho] at h
          exact livePhase_some_fields oracle now p rest (att ++ [.dolarapi_ccl]) st r att2 st2 h
        | raises =>
          rw [livePhase_cons_raises oracle now p .dolarapi_ccl rest att st hs2
            (by decide) ho] at h
          exact livePhase_some_fields oracle now p rest (att ++ [.dolarapi_ccl])
            (st.setStatus .dolarapi_ccl false) r att2 st2 h
      | ccl_al30 =>
        cases ho : oracle .ccl_al30 with
        | ok d =>
          rw [livePhase_cons_ok oracle now p .ccl_al30 rest att st hs2 (by decide) d ho,
            Prod.mk.injEq, Option.some_inj] at h
          rw [← h.1]
        | noneResult =>
          rw [livePhase_cons_noneResult oracle now p .ccl_al30 rest att st hs2
            (by decide) ho] at h
          exact livePhase_some_fields oracle now p rest (att ++ [.ccl_al30]) st r att2 st2 h
        | raises =>
          rw [livePhase_cons_raises oracle now p .ccl_al30 rest att st hs2
            (by decide) ho] at h
          exact livePhase_some_fields oracle now p rest (att ++ [.ccl_al30])
            (st.setStatus .ccl_al30 false) r att2 st2 h

theorem livePhase_none_caches (oracle : Source → FetchOutcome) (now : ℤ) (p : Source) :
    ∀ (srcs att : List Source) (st : DollarState) (att2 : List Source) (st2 : DollarState),
      livePhase oracle now p srcs att st = (none, att2, st2) →
      ∀ s2, st2.getCache s2 = st.getCache s2
  | [], att, st, att2, st2, h, s2 => by
    rw [livePhase_nil, Prod.mk.injEq, Prod.mk.injEq] at h
    rw [← h.2.2]
  | s :: rest, att, st, att2, st2, h, s2 => by
    by_cases hs : st.status s = false
    · rw [livePhase_cons_skip oracle now p s rest att st hs] at h
      exact livePhase_none_caches oracle now p rest att st att2 st2 h s2
    · have hs2 : st.status s = true := by
        cases hb : st.status s
        · exact absurd hb hs
        · rfl
      cases s with
      | dolarapi_mep =>
        rw [livePhase_cons_mep oracle now p rest att st hs2] at h
        exact livePhase_none_caches oracle now p rest (att ++ [.dolarapi_mep]) st att2 st2 h s2
      | dolarapi_ccl =>
        cases ho : oracle .dolarapi_ccl with
        | ok d =>
          rw [livePhase_cons_ok oracle now p .dolarapi_ccl rest att st hs2 (by decide) d ho,
            Prod.mk.injEq] at h
          exact absurd h.1 (by simp)
        | noneResult =>
          rw [livePhase_cons_noneResult oracle now p .dolarapi_ccl rest att st hs2
            (by decide) ho] at h
          exact livePhase_none_caches oracle now p rest (att ++ [.dolarapi_ccl]) st att2 st2 h s2
        | raises =>
          rw [livePhase_cons_raises oracle now p .dolarapi_ccl rest att st hs2
            (by decide) ho] at h
          rw [livePhase_none_caches oracle now p rest (att ++ [.dolarapi_ccl])
            (st.setStatus .dolarapi_ccl false) att2 st2 h s2]
          exact setStatus_getCache st .dolarapi_ccl false s2
      | ccl_al30 =>
        cases ho : oracle .ccl_al30 with
        | ok d =>
          rw [livePhase_cons_ok oracle now p .ccl_al30 rest att st hs2 (by decide) d ho,
            Prod.mk.injEq] at h
          exact absurd h.1 (by simp)
        | noneResult =>
          rw [livePhase_cons_noneResult oracle now p .ccl_al30 rest att st hs2
            (by decide) ho] at h
          exact livePhase_none_caches oracle now p rest (att ++ [.ccl_al30]) st att2 st2 h s2
        | raises =>
          rw [livePhase_cons_raises oracle now p .ccl_al30 rest att st hs2
            (by decide) ho] at h
          rw [livePhase_none_caches oracle now p rest (att ++ [.ccl_al30])
            (st.setStatus .ccl_al30 false) att2 st2 h s2]
          exact setStatus_getCache st .ccl_al30 false s2

theorem get_ccl_rate_cache_hit (st : DollarState) (oracle : Source → FetchOutcome)
    (now : ℤ) (parg : Option Source) (r : CCLResult) (st1 : DollarState)
    (h : cachePhase now (parg.getD st.preferred_ccl_source)
      (sourcesFor (parg.getD st.preferred_ccl_source)) st = (some r, st1)) :
    get_ccl_rate st oracle now parg = (some r, st1) := by
  unfold get_ccl_rate
  dsimp only
  rw [h]

theorem get_ccl_rate_live (st : DollarState) (oracle : Source → FetchOutcome) (now : ℤ)
    (parg : Option Source) (st1 : DollarState) (r : CCLResult) (att2 : List Source)
    (st2 : DollarState)
    (hc : cachePhase now (parg.getD st.preferred_ccl_source)
      (sourcesFor (parg.getD st.preferred_ccl_source)) st = (none, st1))
    (hl : livePhase oracle now (parg.getD st.preferred_ccl_source)
      (sourcesFor (parg.getD st.preferred_ccl_source)) [] st1 = (some r, att2, st2)) :
    get_ccl_rate st oracle now parg = (some r, st2) := by
  unfold get_ccl_rate
  dsimp only
  rw [hc]
  dsimp only
  rw [hl]

theorem get_ccl_rate_all_fail (st : DollarState) (oracle : Source → FetchOutcome) (now : ℤ)
    (parg : Option Source) (st1 : DollarState) (att2 : List Source) (st2 : DollarState)
    (hc : cachePhase now (parg.getD st.preferred_ccl_source)
      (sourcesFor (parg.getD st.preferred_ccl_source)) st = (none, st1))
    (hl : livePhase oracle now (parg.getD st.preferred_ccl_source)
      (sourcesFor (parg.getD st.preferred_ccl_source)) [] st1 = (none, att2, st2)) :
    get_ccl_rate st oracle now parg
      = (match stalePhase (parg.getD st.preferred_ccl_source) att2
            (sourcesFor (parg.getD st.preferred_ccl_source)) st2 with
         | some r => (some r, st2)
         | none => (none, st2)) := by
  unfold get_ccl_rate
  dsimp only
  rw [hc]
  dsimp only
  rw [hl]

theorem get_ccl_rate_snd_of_cache_none (st : DollarState) (oracle : Source → FetchOutcome)
    (now : ℤ) (parg : Option Source) (st1 : DollarState)
    (hc : cachePhase now (parg.getD st.preferred_ccl_source)
      (sourcesFor (parg.getD st.preferred_ccl_source)) st = (none, st1)) :
    (get_ccl_rate st oracle now parg).2
      = (livePhase oracle now (parg.getD st.preferred_ccl_source)
          (sourcesFor (parg.getD st.preferred_ccl_source)) [] st1).2.2 := by
  unfold get_ccl_rate
  dsimp only
  rw [hc]
  dsimp only
  rcases hl : livePhase oracle now (parg.getD st.preferred_ccl_source)
    (sourcesFor (parg.getD st.preferred_ccl_source)) [] st1 with ⟨lfst, att2, st2⟩
  cases lfst with
  | some r => rfl
  | none =>
    dsimp only
    cases stalePhase (parg.getD st.preferred_ccl_source) att2
      (sourcesFor (parg.getD st.preferred_ccl_source)) st2 <;> rfl

/-- No result of `get_ccl_rate` carries `cache_fallback = true`: the stale
last-resort loop is dead code, because the fresh-lookup phase of the same
call evicted every expired entry and the live loop writes none back on
the failure path. -/
theorem get_ccl_rate_no_cache_fallback (st : DollarState) (oracle : Source → FetchOutcome)
    (now : ℤ) (parg : Option Source) (r : CCLResult) (st2 : DollarState)
    (h : get_ccl_rate st oracle now parg = (some r, st2)) : r.cache_fallback = false := by
  rcases hcp : cachePhase now (parg.getD st.preferred_ccl_source)
    (sourcesFor (parg.getD st.preferred_ccl_source)) st with ⟨cfst, st1⟩
  cases cfst with
  | some rc =>
    rw [get_ccl_rate_cache_hit st oracle now parg rc st1 hcp, Prod.mk.injEq,
      Option.some_inj] at h
    rw [← h.1]
    exact (cachePhase_some now _ _ st st1 rc hcp).2.1
  | none =>
    rcases hl : livePhase oracle now (parg.getD st.preferred_ccl_source)
      (sourcesFor (parg.getD st.preferred_ccl_source)) [] st1 with ⟨lfst, att2, st2b⟩
    cases lfst with
    | some rl =>
      rw [get_ccl_rate_live st oracle now parg st1 rl att2 st2b hcp hl, Prod.mk.injEq,
        Option.some_inj] at h
      rw [← h.1]
      exact livePhase_some_fields oracle now _ _ [] st1 rl att2 st2b hl
    | none =>
      rw [get_ccl_rate_all_fail st oracle now parg st1 att2 st2b hcp hl] at h
      have hslots := cachePhase_none_slots now _ _ st st1 hcp
      have hstale : stalePhase (parg.getD st.preferred_ccl_source) att2
          (sourcesFor (parg.getD st.preferred_ccl_source)) st2b = none := by
        refine stalePhase_none_of_slots _ _ _ _ (fun s2 hs2 => ?_)
        rw [livePhase_none_caches oracle now _ _ [] st1 att2 st2b hl s2]
        exact hslots s2 hs2
      rw [hstale] at h
      exact absurd h (by simp)

/-! ## Theorems -/

/-- C8: `parse_ratio "2:1"` is 2.0 and `parse_ratio "1:1"` is 1.0; any
input whose attempted `float(...)` conversion fails (including `"abc"`
and the empty string) yields the safe default 1.0.  The model is a total
function, mirroring that the `except` arm keeps every input from
aborting the caller. -/
theorem c8_parse_ratio_round_trip :
    parse_ratio "2:1" = 2 ∧ parse_ratio "1:1" = 1 ∧
    parse_ratio "abc" = 1 ∧ parse_ratio "" = 1 ∧
    ∀ s : String, pyFloatChars (ratioHead s) = none → parse_ratio s = 1 := by
  refine ⟨by decide, by decide, by decide, by decide, ?_⟩
  intro s h
  rw [parse_ratio_eq_getD, h]
  rfl

/-- C8 witness: the universally quantified arm applied to the malformed
input `"x:y"`. -/
theorem c8_parse_ratio_round_trip_witness : parse_ratio "x:y" = 1 :=
  c8_parse_ratio_round_trip.2.2.2.2 "x:y" (by decide)

/-- Every call of `analyze_single_variation` aborts at step 2: the
historical underlying price source is permanently unavailable. -/
theorem analyze_single_variation_eq_none (st : VariationState) (env : VariationEnv)
    (s : String) : analyze_single_variation st env s = none := by
  unfold analyze_single_variation
  cases env.get_stock_price s <;> rfl

/-- C3: `_get_historical_underlying_price` returns None for every input,
`analyze_single_variation` therefore returns None for every symbol and
environment, and `analyze_portfolio_variations` returns the empty list
for every list of symbols. -/
theorem c3_variation_analysis_always_aborts :
    (∀ s : String, getHistoricalUnderlyingPrice s = none) ∧
    (∀ (st : VariationState) (env : VariationEnv) (s : String),
        analyze_single_variation st env s = none) ∧
    (∀ (st : VariationState) (env : VariationEnv) (symbols : List String),
        analyze_portfolio_variations st env symbols = []) := by
  refine ⟨fun _ => rfl, analyze_single_variation_eq_none, ?_⟩
  intro st env symbols
  simp [analyze_portfolio_variations, List.filterMap_eq_nil_iff,
    analyze_single_variation_eq_none]

/-- C4 counterexample: starting from a sessionless detector and the
PriceFetcher built alongside it, attaching a session through the
detector setter leaves the fetcher sessionless in limited mode, so the
fetcher does not agree with the detector after the call. -/
theorem c4_counterexample :
    (detectorSetSessionOnPair
        { detector := { iol_session := false, mode := .limited }
          fetcher := { iol_session := false, mode := .limited } } true).detector.mode
      = Mode.full ∧
    (detectorSetSessionOnPair
        { detector := { iol_session := false, mode := .limited }
          fetcher := { iol_session := false, mode := .limited } } true).fetcher.mode
      = Mode.limited ∧
    (detectorSetSessionOnPair
        { detector := { iol_session := false, mode := .limited }
          fetcher := { iol_session := false, mode := .limited } } true).fetcher.iol_session
      = false :=
  ⟨rfl, rfl, rfl⟩

/-- C4 amended: `ArbitrageDetector.set_iol_session` toggles the mode of
the detector itself and stores the session, but performs no propagation:
for every starting pair and session value the PriceFetcher component is
returned unchanged. -/
theorem c4_set_session_no_propagation (p : DetectorFetcherPair) (session : Bool) :
    (detectorSetSessionOnPair p session).detector.iol_session = session ∧
    (detectorSetSessionOnPair p session).detector.mode
      = (if session then Mode.full else Mode.limited) ∧
    (detectorSetSessionOnPair p session).fetcher = p.fetcher :=
  ⟨rfl, rfl, rfl⟩

/-- C2 amended: when the mode strategy (IOL in full mode, BYMA in limited
mode) cannot resolve the per-share CEDEAR price, `detect_single_arbitrage`
returns None for the symbol directly; no theoretical fallback runs. -/
theorem c2_no_theoretical_fallback (d : ArbitrageDetector) (env : DetectorEnv)
    (symbol : String) (threshold : ℚ)
    (h : (ArbitrageDetector.getCedearPriceUsd d env symbol).2 = none) :
    detect_single_arbitrage d env symbol threshold = none := by
  unfold detect_single_arbitrage
  cases hs : env.get_stock_price symbol with
  | none => rfl
  | some u =>
    rcases hc : ArbitrageDetector.getCedearPriceUsd d env symbol with ⟨a, b⟩
    rw [hc] at h
    simp only at h
    subst h
    rfl

/-- Environment of the C2 scenario: limited mode, BYMA has no quote for
the symbol, yet every ingredient of the theoretical method is present. -/
def c2Env : DetectorEnv :=
  { get_stock_price := fun _ => some 100
    iol_quote := fun _ => none
    byma_quote := fun _ => none
    cedear_info := fun _ => some { ratioStr := some "5:1" }
    ccl := some 1000 }

/-- C2 counterexample: on this input the theoretical method succeeds, so a
detector that fell back to it before giving up would not return None; the
actual `detect_single_arbitrage` does return None. -/
theorem c2_counterexample :
    ArbitrageDetector.getTheoreticalCedearPrice c2Env "TSLA" = (some 20000, some 100) ∧
    detect_single_arbitrage { iol_session := false, mode := .limited } c2Env "TSLA"
      (5 / 1000) = none := by
  constructor
  · have h5 : parse_ratio "5:1" = 5 := by decide
    norm_num [ArbitrageDetector.getTheoreticalCedearPrice, c2Env, h5]
  · rfl

/-- C2 witness: the amended theorem applied to the concrete scenario. -/
theorem c2_no_theoretical_fallback_witness :
    detect_single_arbitrage { iol_session := false, mode := .limited } c2Env "TSLA"
      (5 / 1000) = none :=
  c2_no_theoretical_fallback { iol_session := false, mode := .limited } c2Env "TSLA"
    (5 / 1000) rfl

/-- C9: for a positive conversion ratio `r` and positive exchange rate
`c`, both theoretical-price computations return the local price
`(u / r) * c` paired with an implied share price exactly equal to the
underlying price `u`: the round trips `(u / r) * r` (PriceFetcher) and
`(((u / r) * c) * r) / c` (ArbitrageDetector) are exact. -/
theorem c9_theoretical_price_round_trip
    (env : FetcherEnv) (denv : DetectorEnv) (symbol : String)
    (u r c : ℚ) (info : CedearInfo)
    (hpfInfo : PriceFetcher.getCedearConversionInfo env symbol = some r)
    (hpfCcl : env.ccl = some c)
    (hdInfo : denv.cedear_info symbol = some info)
    (hdR : parse_ratio (info.ratioStr.getD "1:1") = r)
    (hdU : denv.get_stock_price symbol = some u)
    (hdCcl : denv.ccl = some c)
    (hr : 0 < r) (hc : 0 < c) :
    PriceFetcher.getTheoreticalCedearPrice env symbol u = (some (u / r * c), some u) ∧
    ArbitrageDetector.getTheoreticalCedearPrice denv symbol = (some (u / r * c), some u) := by
  constructor
  · unfold PriceFetcher.getTheoreticalCedearPrice PriceFetcher.getCclRateSafe
    rw [hpfInfo, hpfCcl]
    simp only [if_neg hr.ne', if_neg hc.ne']
    rw [div_mul_cancel₀ u hr.ne']
  · unfold ArbitrageDetector.getTheoreticalCedearPrice
    rw [hdInfo]
    dsimp only
    rw [hdR, hdU, hdCcl]
    dsimp only [Option.getD]
    rw [if_neg hr.ne', if_neg hc.ne']
    have hround : u / r * c * r / c = u := by
      field_simp
    rw [hround]

def c9FEnv : FetcherEnv :=
  { cedear_info := fun _ => some { ratioStr := some "5:1" }
    ccl := some 1000 }

def c9DEnv : DetectorEnv :=
  { get_stock_price := fun _ => some 100
    iol_quote := fun _ => none
    byma_quote := fun _ => none
    cedear_info := fun _ => some { ratioStr := some "5:1" }
    ccl := some 1000 }

/-- C9 witness: ratio "5:1", exchange rate 1000, underlying price 100:
both computations return (20000 ARS, implied share 100 USD). -/
theorem c9_theoretical_price_round_trip_witness :
    PriceFetcher.getTheoreticalCedearPrice c9FEnv "AAPL" 100 = (some 20000, some 100) ∧
    ArbitrageDetector.getTheoreticalCedearPrice c9DEnv "AAPL" = (some 20000, some 100) := by
  have h := c9_theoretical_price_round_trip c9FEnv c9DEnv "AAPL" 100 5 1000
    { ratioStr := some "5:1" } (by decide) rfl rfl (by decide) rfl rfl
    (by norm_num) (by norm_num)
  refine ⟨?_, ?_⟩
  · rw [h.1]; norm_num
  · rw [h.2]; norm_num

/-- When both prices resolve (truthy per-share price, nonzero underlying),
`detect_single_arbitrage` reduces to the threshold comparison. -/
theorem detect_single_arbitrage_resolved (d : ArbitrageDetector) (env : DetectorEnv)
    (symbol : String) (threshold u cu : ℚ) (cedearArs : Option ℚ)
    (hu : env.get_stock_price symbol = some u)
    (hc : ArbitrageDetector.getCedearPriceUsd d env symbol = (cedearArs, some cu))
    (hcu : cu ≠ 0) (hne : u ≠ 0) :
    detect_single_arbitrage d env symbol threshold
      = (if threshold ≤ |u - cu| / u then
          some (mkOpportunity symbol cu u (u - cu) (|u - cu| / u) (env.ccl.getD 1300)
            cedearArs (decide (d.mode = Mode.full)))
        else none) := by
  unfold detect_single_arbitrage
  rw [hu, hc]
  dsimp only
  rw [if_neg hcu, if_neg hne]

/-- C7: when the underlying price resolves to a positive value and the
per-share CEDEAR price resolves to a truthy value, an opportunity is
emitted exactly when the difference percentage reaches the threshold
(equality included); the emitted action comes from the sign of
`difference_usd` alone (positive buys the CEDEAR, otherwise the
underlying); below the threshold the call returns None, not an error. -/
theorem c7_threshold_boundary_and_action (d : ArbitrageDetector) (env : DetectorEnv)
    (symbol : String) (threshold u cu : ℚ) (cedearArs : Option ℚ)
    (hu : env.get_stock_price symbol = some u) (hupos : 0 < u)
    (hc : ArbitrageDetector.getCedearPriceUsd d env symbol = (cedearArs, some cu))
    (hcu : cu ≠ 0) :
    (threshold ≤ |u - cu| / u →
      detect_single_arbitrage d env symbol threshold
        = some (mkOpportunity symbol cu u (u - cu) (|u - cu| / u) (env.ccl.getD 1300)
            cedearArs (decide (d.mode = Mode.full)))) ∧
    (|u - cu| / u < threshold → detect_single_arbitrage d env symbol threshold = none) ∧
    (∀ opp, detect_single_arbitrage d env symbol threshold = some opp →
      opp.action = if 0 < opp.difference_usd then Action.BUY_CEDEAR
        else Action.BUY_UNDERLYING) := by
  have hkey := detect_single_arbitrage_resolved d env symbol threshold u cu cedearArs
    hu hc hcu (ne_of_gt hupos)
  refine ⟨fun h => by rw [hkey, if_pos h], fun h => by rw [hkey, if_neg (not_le.mpr h)], ?_⟩
  intro opp hopp
  rw [hkey] at hopp
  by_cases h : threshold ≤ |u - cu| / u
  · rw [if_pos h, Option.some_inj] at hopp
    subst hopp
    rfl
  · rw [if_neg h] at hopp
    exact absurd hopp (by simp)

/-- Environment of the end-to-end C7 scenario: underlying 100 USD, BYMA
CEDEAR price 10000 ARS, ratio "5:1", exchange rate 1000. -/
def c7Env : DetectorEnv :=
  { get_stock_price := fun _ => some 100
    iol_quote := fun _ => none
    byma_quote := fun _ => some 10000
    cedear_info := fun _ => some { ratioStr := some "5:1" }
    ccl := some 1000 }

/-- C7 witness: implied share price 50 USD, difference 50 USD = 50 percent,
threshold exactly 1/2 is reached, action buys the CEDEAR. -/
theorem c7_threshold_boundary_and_action_witness :
    detect_single_arbitrage { iol_session := false, mode := .limited } c7Env "TSLA" (1 / 2)
      = some (mkOpportunity "TSLA" 50 100 50 (1 / 2) 1000 (some 10000) false) := by
  have h5 : parse_ratio "5:1" = 5 := by decide
  have hc : ArbitrageDetector.getCedearPriceUsd { iol_session := false, mode := .limited }
      c7Env "TSLA" = (some 10000, some 50) := by
    norm_num [ArbitrageDetector.getCedearPriceUsd, ArbitrageDetector.getBymaRealCedearPrice,
      c7Env, h5]
  have h := (c7_threshold_boundary_and_action { iol_session := false, mode := .limited }
    c7Env "TSLA" (1 / 2) 100 50 (some 10000) rfl (by norm_num) hc (by norm_num)).1
    (by norm_num)
  rw [h]
  norm_num [mkOpportunity, c7Env]
  decide

/-- TTL 300 seconds, an entry for the dolarapi source stored at time 0,
resolution call at time 1000: the C1 failing input. -/
def c1State : DollarState :=
  { DollarState.init 300 .dolarapi_ccl with
      cache_dolarapi_ccl := some { data := { rate := 1200 }, ts := 0 } }

/-- C1: at the failing input an expired cache entry exists and every live
source fails, and the stale last-resort loop applied to the entry as
stored would serve it with `cache_fallback = true` (third conjunct) —
yet the call returns None, with the entry evicted and the source
disabled (fourth conjunct): the fresh-lookup phase of the same call
popped the expired entry before the last-resort loop ran, so the
promised stale value is never produced. -/
theorem c1_stale_fallback_unreachable :
    c1State.cache_dolarapi_ccl = some { data := { rate := 1200 }, ts := 0 } ∧
    c1State.cache_ttl_seconds < 1000 - 0 ∧
    stalePhase .dolarapi_ccl [.dolarapi_ccl] (sourcesFor .dolarapi_ccl) c1State
      = some { rate := 1200, source := .dolarapi_ccl, preferred_source := .dolarapi_ccl,
               fallback_used := true, cache_fallback := true,
               attempted_sources := [.dolarapi_ccl] } ∧
    get_ccl_rate c1State (fun _ => FetchOutcome.raises) 1000 none
      = (none, { c1State with cache_dolarapi_ccl := none, status_dolarapi_ccl := false }) :=
  ⟨rfl, by decide, rfl, rfl⟩

/-- A service whose only cache entry is a dolarapi value stored at `t0`,
with TTL `T` and preferred source dolarapi. -/
def singleCachedState (T : ℤ) (rate : ℚ) (t0 : ℤ) : DollarState :=
  { DollarState.init T .dolarapi_ccl with
      cache_dolarapi_ccl := some { data := { rate := rate }, ts := t0 } }

/-- C5 counterexample: entry stored at `t0 = 0` with TTL 300; at
`now = 300`, exactly `t0 + T`, the claim says the fresh-cache path is not
taken and the source is re-invoked, but the call still serves the cached
1200 (the live oracle would have answered 999) without touching the
state. -/
theorem c5_boundary_counterexample :
    (0 : ℤ) + 300 ≤ 300 ∧
    get_ccl_rate (singleCachedState 300 1200 0)
        (fun _ => FetchOutcome.ok { rate := 999 }) 300 none
      = (some { rate := 1200, source := .dolarapi_ccl, preferred_source := .dolarapi_ccl,
                fallback_used := false, cache_fallback := false,
                attempted_sources := [.dolarapi_ccl] },
         singleCachedState 300 1200 0) :=
  ⟨by decide, rfl⟩

/-- C5 amended: the age test is strict (`age > TTL`), so a call at
`now ≤ t0 + T` is served from the cache with no oracle invocation and no
state change, and a call at `now > t0 + T` misses the fresh path, evicts
the entry and re-invokes the live source. -/
theorem c5_cache_freshness (T t0 now : ℤ) (rate : ℚ) :
    (now ≤ t0 + T → ∀ oracle : Source → FetchOutcome,
      get_ccl_rate (singleCachedState T rate t0) oracle now none
        = (some { rate := rate, source := .dolarapi_ccl, preferred_source := .dolarapi_ccl,
                  fallback_used := false, cache_fallback := false,
                  attempted_sources := [.dolarapi_ccl] },
           singleCachedState T rate t0)) ∧
    (t0 + T < now → ∀ (oracle : Source → FetchOutcome) (d : RateData),
      oracle .dolarapi_ccl = .ok d →
      (get_ccl_rate (singleCachedState T rate t0) oracle now none).1
        = some { rate := d.rate, source := .dolarapi_ccl, preferred_source := .dolarapi_ccl,
                 fallback_used := false, cache_fallback := false,
                 attempted_sources := [.dolarapi_ccl] }) := by
  constructor
  · intro h oracle
    have hfresh := getFromCache_fresh (singleCachedState T rate t0) .dolarapi_ccl now
      { data := { rate := rate }, ts := t0 } rfl (by show ¬ (T < now - t0); omega)
    have hcp := cachePhase_cons_hit now .dolarapi_ccl .dolarapi_ccl [.ccl_al30]
      (singleCachedState T rate t0) (singleCachedState T rate t0) { rate := rate } hfresh
    exact get_ccl_rate_cache_hit (singleCachedState T rate t0) oracle now none _ _ hcp
  · intro h oracle d hok
    have hexp := getFromCache_expired (singleCachedState T rate t0) .dolarapi_ccl now
      { data := { rate := rate }, ts := t0 } rfl (by show T < now - t0; omega)
    have hA : getFromCache ((singleCachedState T rate t0).popCache .dolarapi_ccl)
        .ccl_al30 now = (none, (singleCachedState T rate t0).popCache .dolarapi_ccl) :=
      getFromCache_noEntry _ _ _ rfl
    have hcp : cachePhase now .dolarapi_ccl [.dolarapi_ccl, .ccl_al30]
        (singleCachedState T rate t0)
        = (none, (singleCachedState T rate t0).popCache .dolarapi_ccl) := by
      rw [cachePhase_cons_miss now .dolarapi_ccl .dolarapi_ccl [.ccl_al30] _ _ hexp,
        cachePhase_cons_miss now .dolarapi_ccl .ccl_al30 [] _ _ hA]
      exact cachePhase_nil now .dolarapi_ccl _
    have hlv := livePhase_cons_ok oracle now .dolarapi_ccl .dolarapi_ccl [.ccl_al30] []
      ((singleCachedState T rate t0).popCache .dolarapi_ccl) rfl (by decide) d hok
    have hcall := get_ccl_rate_live (singleCachedState T rate t0) oracle now none
      ((singleCachedState T rate t0).popCache .dolarapi_ccl) _ _ _ hcp hlv
    rw [hcall]
    rfl

/-- C5 witness: the amended theorem at TTL 300, entry stored at 0, rate
1200: a call at 100 serves the cache against any oracle; a call at 400
with a live oracle answering 999 returns the fresh 999. -/
theorem c5_cache_freshness_witness :
    get_ccl_rate (singleCachedState 300 1200 0)
        (fun _ => FetchOutcome.ok { rate := 999 }) 100 none
      = (some { rate := 1200, source := .dolarapi_ccl, preferred_source := .dolarapi_ccl,
                fallback_used := false, cache_fallback := false,
                attempted_sources := [.dolarapi_ccl] },
         singleCachedState 300 1200 0) ∧
    (get_ccl_rate (singleCachedState 300 1200 0)
        (fun _ => FetchOutcome.ok { rate := 999 }) 400 none).1
      = some { rate := 999, source := .dolarapi_ccl, preferred_source := .dolarapi_ccl,
               fallback_used := false, cache_fallback := false,
               attempted_sources := [.dolarapi_ccl] } :=
  ⟨(c5_cache_freshness 300 0 100 1200).1 (by decide) _,
   (c5_cache_freshness 300 0 400 1200).2 (by decide) _ { rate := 999 } rfl⟩

/-- The second source in the priority order built from a preferred CCL
source. -/
def fallbackPartner : Source → Source
  | .dolarapi_ccl => .ccl_al30
  | .ccl_al30 => .dolarapi_ccl
  | .dolarapi_mep => .ccl_al30

/-- A fresh service (empty cache) with both CCL sources enabled: the
constructor state after `set_iol_session` attached a session. -/
def bothEnabledInit (ttl : ℤ) (p : Source) : DollarState :=
  set_iol_session (DollarState.init ttl p) true

/-- C6: on a fresh resolver with both sources enabled, when the preferred
source raises and the other answers, the call returns the other source's
value with `attempted_sources` listing both sources in priority order and
`fallback_used = true`; and every call served from the cache reports a
single-element `attempted_sources` holding exactly the serving source. -/
theorem c6_fallback_ordering :
    (∀ p : Source, p ≠ .dolarapi_mep →
      ∀ (ttl now : ℤ) (d : RateData) (oracle : Source → FetchOutcome),
        oracle p = .raises → (∀ s, s ≠ p → oracle s = .ok d) →
        (get_ccl_rate (bothEnabledInit ttl p) oracle now none).1
          = some { rate := d.rate, source := fallbackPartner p, preferred_source := p,
                   fallback_used := true, cache_fallback := false,
                   attempted_sources := [p, fallbackPartner p] }) ∧
    (∀ (now : ℤ) (p : Source) (srcs : List Source) (st st1 : DollarState) (r : CCLResult),
      cachePhase now p srcs st = (some r, st1) → r.attempted_sources = [r.source]) := by
  constructor
  · intro p hp ttl now d oracle h1 h2
    cases p with
    | dolarapi_mep => exact absurd rfl hp
    | dolarapi_ccl =>
      have h2A := h2 .ccl_al30 (by decide)
      have hcp : cachePhase now .dolarapi_ccl [.dolarapi_ccl, .ccl_al30]
          (bothEnabledInit ttl .dolarapi_ccl) = (none, bothEnabledInit ttl .dolarapi_ccl) := by
        rw [cachePhase_cons_miss now .dolarapi_ccl .dolarapi_ccl [.ccl_al30]
            (bothEnabledInit ttl .dolarapi_ccl) (bothEnabledInit ttl .dolarapi_ccl)
            (getFromCache_noEntry (bothEnabledInit ttl .dolarapi_ccl) .dolarapi_ccl now rfl),
          cachePhase_cons_miss now .dolarapi_ccl .ccl_al30 []
            (bothEnabledInit ttl .dolarapi_ccl) (bothEnabledInit ttl .dolarapi_ccl)
            (getFromCache_noEntry (bothEnabledInit ttl .dolarapi_ccl) .ccl_al30 now rfl)]
        exact cachePhase_nil now .dolarapi_ccl (bothEnabledInit ttl .dolarapi_ccl)
      have hlv : livePhase oracle now .dolarapi_ccl [.dolarapi_ccl, .ccl_al30] []
          (bothEnabledInit ttl .dolarapi_ccl)
          = (some { rate := d.rate, source := .ccl_al30, preferred_source := .dolarapi_ccl,
                    fallback_used := decide (Source.ccl_al30 ≠ Source.dolarapi_ccl),
                    cache_fallback := false,
                    attempted_sources := ([] ++ [.dolarapi_ccl]) ++ [.ccl_al30] },
             ([] ++ [.dolarapi_ccl]) ++ [.ccl_al30],
             setCacheNow ((bothEnabledInit ttl .dolarapi_ccl).setStatus .dolarapi_ccl false)
               .ccl_al30 d now) := by
        rw [livePhase_cons_raises oracle now .dolarapi_ccl .dolarapi_ccl [.ccl_al30] []
            (bothEnabledInit ttl .dolarapi_ccl) rfl (by decide) h1]
        exact livePhase_cons_ok oracle now .dolarapi_ccl .ccl_al30 [] ([] ++ [.dolarapi_ccl])
          ((bothEnabledInit ttl .dolarapi_ccl).setStatus .dolarapi_ccl false) rfl
          (by decide) d h2A
      have hcall := get_ccl_rate_live (bothEnabledInit ttl .dolarapi_ccl) oracle now none
        _ _ _ _ hcp hlv
      rw [hcall]
      rfl
    | ccl_al30 =>
      have h2D := h2 .dolarapi_ccl (by decide)
      have hcp : cachePhase now .ccl_al30 [.ccl_al30, .dolarapi_ccl]
          (bothEnabledInit ttl .ccl_al30) = (none, bothEnabledInit ttl .ccl_al30) := by
        rw [cachePhase_cons_miss now .ccl_al30 .ccl_al30 [.dolarapi_ccl]
            (bothEnabledInit ttl .ccl_al30) (bothEnabledInit ttl .ccl_al30)
            (getFromCache_noEntry (bothEnabledInit ttl .ccl_al30) .ccl_al30 now rfl),
          cachePhase_cons_miss now .ccl_al30 .dolarapi_ccl []
            (bothEnabledInit ttl .ccl_al30) (bothEnabledInit ttl .ccl_al30)
            (getFromCache_noEntry (bothEnabledInit ttl .ccl_al30) .dolarapi_ccl now rfl)]
        exact cachePhase_nil now .ccl_al30 (bothEnabledInit ttl .ccl_al30)
      have hlv : livePhase oracle now .ccl_al30 [.ccl_al30, .dolarapi_ccl] []
          (bothEnabledInit ttl .ccl_al30)
          = (some { rate := d.rate, source := .dolarapi_ccl, preferred_source := .ccl_al30,
                    fallback_used := decide (Source.dolarapi_ccl ≠ Source.ccl_al30),
                    cache_fallback := false,
                    attempted_sources := ([] ++ [.ccl_al30]) ++ [.dolarapi_ccl] },
             ([] ++ [.ccl_al30]) ++ [.dolarapi_ccl],
             setCacheNow ((bothEnabledInit ttl .ccl_al30).setStatus .ccl_al30 false)
               .dolarapi_ccl d now) := by
        rw [livePhase_cons_raises oracle now .ccl_al30 .ccl_al30 [.dolarapi_ccl] []
            (bothEnabledInit ttl .ccl_al30) rfl (by decide) h1]
        exact livePhase_cons_ok oracle now .ccl_al30 .dolarapi_ccl [] ([] ++ [.ccl_al30])
          ((bothEnabledInit ttl .ccl_al30).setStatus .ccl_al30 false) rfl
          (by decide) d h2D
      have hcall := get_ccl_rate_live (bothEnabledInit ttl .ccl_al30) oracle now none
        _ _ _ _ hcp hlv
      rw [hcall]
      rfl
  · intro now p srcs st st1 r h
    exact (cachePhase_some now p srcs st st1 r h).1

/-- C6 oracle: the dolarapi fetch raises, every other fetch answers 1234. -/
def c6Oracle : Source → FetchOutcome := fun s =>
  match s with
  | .dolarapi_ccl => .raises
  | _ => .ok { rate := 1234 }

/-- C6 witness: the fallback-ordering arm at the concrete failing-primary
oracle, and the cache-hit arm at a concrete fresh entry. -/
theorem c6_fallback_ordering_witness :
    (get_ccl_rate (bothEnabledInit 300 .dolarapi_ccl) c6Oracle 0 none).1
      = some { rate := 1234, source := .ccl_al30, preferred_source := .dolarapi_ccl,
               fallback_used := true, cache_fallback := false,
               attempted_sources := [.dolarapi_ccl, .ccl_al30] } ∧
    ({ rate := 1200, source := .dolarapi_ccl, preferred_source := .dolarapi_ccl,
       fallback_used := false, cache_fallback := false,
       attempted_sources := [.dolarapi_ccl] } : CCLResult).attempted_sources
      = [.dolarapi_ccl] := by
  constructor
  · exact c6_fallback_ordering.1 .dolarapi_ccl (by decide) 300 0 { rate := 1234 } c6Oracle
      rfl (fun s hs => by
        cases s with
        | dolarapi_ccl => exact absurd rfl hs
        | ccl_al30 => rfl
        | dolarapi_mep => rfl)
  · exact c6_fallback_ordering.2 0 .dolarapi_ccl [.dolarapi_ccl]
      (singleCachedState 300 1200 0) (singleCachedState 300 1200 0) _ rfl

/-- C10: (i) once a call in which the fresh-cache phase missed sees the
dolarapi fetch raise, the post-call state has the source flagged
unavailable with no cache entry under its key; (ii) that condition
persists across every later sequence of `get_ccl_rate` calls and
`set_iol_session` updates; (iii) on such a state each call is oblivious
to the dolarapi fetch function; (iv) it never records dolarapi in
`attempted_sources`; and (v) `set_iol_session` re-enables only the
`ccl_al30` source, leaving the dolarapi flag and cache slot untouched. -/
theorem c10_dolarapi_failure_permanent :
    (∀ (st : DollarState) (oracle : Source → FetchOutcome) (now : ℤ),
      st.status_dolarapi_ccl = true →
      oracle .dolarapi_ccl = .raises →
      (cachePhase now .dolarapi_ccl (sourcesFor .dolarapi_ccl) st).1 = none →
      dolarapiDisabled (get_ccl_rate st oracle now (some .dolarapi_ccl)).2) ∧
    (∀ (st : DollarState) (evs : List DollarEvent),
      dolarapiDisabled st → dolarapiDisabled (runEvents st evs)) ∧
    (∀ (st : DollarState) (o1 o2 : Source → FetchOutcome) (now : ℤ) (parg : Option Source),
      dolarapiDisabled st → (∀ s, s ≠ Source.dolarapi_ccl → o1 s = o2 s) →
      get_ccl_rate st o1 now parg = get_ccl_rate st o2 now parg) ∧
    (∀ (st : DollarState) (oracle : Source → FetchOutcome) (now : ℤ) (parg : Option Source)
        (r : CCLResult) (st2 : DollarState),
      dolarapiDisabled st → get_ccl_rate st oracle now parg = (some r, st2) →
      Source.dolarapi_ccl ∉ r.attempted_sources) ∧
    (∀ (st : DollarState) (b : Bool),
      (set_iol_session st b).status_dolarapi_ccl = st.status_dolarapi_ccl ∧
      (set_iol_session st b).cache_dolarapi_ccl = st.cache_dolarapi_ccl ∧
      (set_iol_session st b).status_ccl_al30 = b) := by
  refine ⟨?_, ?_, ?_, ?_, fun st b => ⟨rfl, rfl, rfl⟩⟩
  · intro st oracle now h1 h2 h3
    rcases hcp : cachePhase now .dolarapi_ccl (sourcesFor .dolarapi_ccl) st with ⟨cfst, st1⟩
    have hc0 : cfst = none := by rw [hcp] at h3; exact h3
    subst hc0
    have hD : st1.getCache .dolarapi_ccl = none :=
      cachePhase_none_slots now .dolarapi_ccl (sourcesFor .dolarapi_ccl) st st1 hcp
        .dolarapi_ccl (by decide)
    have hstat : st1.status .dolarapi_ccl = true := by
      have hpres := cachePhase_status now .dolarapi_ccl (sourcesFor .dolarapi_ccl) st
        .dolarapi_ccl
      rw [hcp] at hpres
      rw [hpres]
      exact h1
    have hcp2 : cachePhase now ((some Source.dolarapi_ccl).getD st.preferred_ccl_source)
        (sourcesFor ((some Source.dolarapi_ccl).getD st.preferred_ccl_source)) st
        = (none, st1) := hcp
    rw [get_ccl_rate_snd_of_cache_none st oracle now (some .dolarapi_ccl) st1 hcp2]
    show dolarapiDisabled
      (livePhase oracle now .dolarapi_ccl [.dolarapi_ccl, .ccl_al30] [] st1).2.2
    rw [livePhase_cons_raises oracle now .dolarapi_ccl .dolarapi_ccl [.ccl_al30] [] st1
      hstat (by decide) h2]
    exact livePhase_disabled oracle now .dolarapi_ccl [.ccl_al30] ([] ++ [.dolarapi_ccl])
      (st1.setStatus .dolarapi_ccl false) ⟨rfl, hD⟩
  · intro st evs hdis
    induction evs generalizing st with
    | nil => exact hdis
    | cons e rest ih =>
      refine ih _ ?_
      cases e with
      | sessionSet b => exact ⟨hdis.1, hdis.2⟩
      | rateCall oracle now parg =>
        show dolarapiDisabled (get_ccl_rate st oracle now parg).2
        rcases hcp : cachePhase now (parg.getD st.preferred_ccl_source)
          (sourcesFor (parg.getD st.preferred_ccl_source)) st with ⟨cfst, st1⟩
        have hst1stat : st1.status_dolarapi_ccl = false := by
          have hpres := cachePhase_status now (parg.getD st.preferred_ccl_source)
            (sourcesFor (parg.getD st.preferred_ccl_source)) st .dolarapi_ccl
          rw [hcp] at hpres
          exact hpres.trans hdis.1
        have hst1cache : st1.cache_dolarapi_ccl = none := by
          have hpres := cachePhase_cacheNone now (parg.getD st.preferred_ccl_source)
            (sourcesFor (parg.getD st.preferred_ccl_source)) st .dolarapi_ccl hdis.2
          rw [hcp] at hpres
          exact hpres
        cases cfst with
        | some r =>
          rw [get_ccl_rate_cache_hit st oracle now parg r st1 hcp]
          exact ⟨hst1stat, hst1cache⟩
        | none =>
          rw [get_ccl_rate_snd_of_cache_none st oracle now parg st1 hcp]
          exact livePhase_disabled oracle now _ _ [] st1 ⟨hst1stat, hst1cache⟩
  · intro st o1 o2 now parg hdis ho
    rcases hcp : cachePhase now (parg.getD st.preferred_ccl_source)
      (sourcesFor (parg.getD st.preferred_ccl_source)) st with ⟨cfst, st1⟩
    have hst1stat : st1.status_dolarapi_ccl = false := by
      have hpres := cachePhase_status now (parg.getD st.preferred_ccl_source)
        (sourcesFor (parg.getD st.preferred_ccl_source)) st .dolarapi_ccl
      rw [hcp] at hpres
      exact hpres.trans hdis.1
    cases cfst with
    | some r =>
      rw [get_ccl_rate_cache_hit st o1 now parg r st1 hcp,
        get_ccl_rate_cache_hit st o2 now parg r st1 hcp]
    | none =>
      have hle := livePhase_oracle_eq now (parg.getD st.preferred_ccl_source) o1 o2 ho
        (sourcesFor (parg.getD st.preferred_ccl_source)) [] st1 hst1stat
      rcases hl1 : livePhase o1 now (parg.getD st.preferred_ccl_source)
        (sourcesFor (parg.getD st.preferred_ccl_source)) [] st1 with ⟨lfst, att2, st2⟩
      have hl2 : livePhase o2 now (parg.getD st.preferred_ccl_source)
          (sourcesFor (parg.getD st.preferred_ccl_source)) [] st1 = (lfst, att2, st2) := by
        rw [← hle]
        exact hl1
      cases lfst with
      | some r =>
        rw [get_ccl_rate_live st o1 now parg st1 r att2 st2 hcp hl1,
          get_ccl_rate_live st o2 now parg st1 r att2 st2 hcp hl2]
      | none =>
        rw [get_ccl_rate_all_fail st o1 now parg st1 att2 st2 hcp hl1,
          get_ccl_rate_all_fail st o2 now parg st1 att2 st2 hcp hl2]
  · intro st oracle now parg r st2 hdis hcall
    rcases hcp : cachePhase now (parg.getD st.preferred_ccl_source)
      (sourcesFor (parg.getD st.preferred_ccl_source)) st with ⟨cfst, st1⟩
    have hst1stat : st1.status_dolarapi_ccl = false := by
      have hpres := cachePhase_status now (parg.getD st.preferred_ccl_source)
        (sourcesFor (parg.getD st.preferred_ccl_source)) st .dolarapi_ccl
      rw [hcp] at hpres
      exact hpres.trans hdis.1
    cases cfst with
    | some rc =>
      rw [get_ccl_rate_cache_hit st oracle now parg rc st1 hcp, Prod.mk.injEq,
        Option.some_inj] at hcall
      obtain ⟨hatt, _, _, hsome⟩ := cachePhase_some now (parg.getD st.preferred_ccl_source)
        (sourcesFor (parg.getD st.preferred_ccl_source)) st st1 rc hcp
      rw [← hcall.1, hatt]
      intro hmem
      rw [List.mem_singleton] at hmem
      rw [← hmem] at hsome
      exact hsome hdis.2
    | none =>
      rcases hl : livePhase oracle now (parg.getD st.preferred_ccl_source)
        (sourcesFor (parg.getD st.preferred_ccl_source)) [] st1 with ⟨lfst, att2, st2b⟩
      have hnot := livePhase_not_attempted oracle now (parg.getD st.preferred_ccl_source)
        (sourcesFor (parg.getD st.preferred_ccl_source)) [] st1 hst1stat (by simp)
      rw [hl] at hnot
      cases lfst with
      | some rl =>
        rw [get_ccl_rate_live st oracle now parg st1 rl att2 st2b hcp hl, Prod.mk.injEq,
          Option.some_inj] at hcall
        rw [← hcall.1]
        exact hnot.2 rl rfl
      | none =>
        rw [get_ccl_rate_all_fail st oracle now parg st1 att2 st2b hcp hl] at hcall
        cases hs : stalePhase (parg.getD st.preferred_ccl_source) att2
          (sourcesFor (parg.getD st.preferred_ccl_source)) st2b with
        | none =>
          rw [hs] at hcall
          exact absurd hcall (by simp)
        | some rs =>
          rw [hs] at hcall
          dsimp only at hcall
          rw [Prod.mk.injEq, Option.some_inj] at hcall
          obtain ⟨hattrs, _⟩ := stalePhase_some_fields (parg.getD st.preferred_ccl_source)
            att2 (sourcesFor (parg.getD st.preferred_ccl_source)) st2b rs hs
          rw [← hcall.1, hattrs]
          exact hnot.1

/-- C10 witness: the disabling arm applied to a fresh service whose
dolarapi fetch raises at time 0, with the preferred source dolarapi. -/
theorem c10_dolarapi_failure_permanent_witness :
    dolarapiDisabled
      (get_ccl_rate (DollarState.init 300 .dolarapi_ccl) (fun _ => FetchOutcome.raises) 0
        (some .dolarapi_ccl)).2 :=
  c10_dolarapi_failure_permanent.1 (DollarState.init 300 .dolarapi_ccl)
    (fun _ => FetchOutcome.raises) 0 rfl rfl rfl

end PortfolioReplicator
